import Mathlib

/-!
Shallow embedding of `src/gemstone-tool-frontend.js` (gemstonejs/gemstone-tool-frontend),
the Gemstone Tool plugin `frontend-build`: a lint-then-bundle pass sequencer with an
optional debounced filesystem-watch rerun loop.

External collaborators (the five linters, the Webpack bundler subprocess, chokidar,
terminal rendering) are modelled as parameters: a linter is a pass/fail flag per
category, the bundler subprocess is its exit code together with the JSON-parse result
of its collected standard output, and the filesystem watch is a timed stream of events.
Terminal writes that the claims mention (the parse-error line, the changed-files
summary, the idle banner) are recorded in explicit output lists; purely decorative
rendering (tables, code frames, colors) is elided.
-/

namespace GemstoneToolFrontend

/-! ### JavaScript value scraps

The script is dynamically typed; the `passed` variable of `singleRun` starts as the
number that `Pass1` returns (`&=` coerces booleans to 0/1 integers) and may be
reassigned to the boolean that `Pass2` returns, and `singleRun` itself returns
`undefined`.  We model just the values those variables actually take.  -/

inductive JSVal : Type where
  | num (n : Nat)
  | bool (b : Bool)
  | undef
  deriving Repr, DecidableEq

/-- JavaScript truthiness for the values of `JSVal`: `0` and `false` and `undefined`
are falsy, every other value here is truthy. -/
def truthy : JSVal → Bool
  | .num n => n != 0
  | .bool b => b
  | .undef => false

/-! ### Option validation (`func`, src lines 64–67)

`if (!opts.env.match(/^(?:production|development)$/)) throw new Error(...)`:
the anchored regular expression (no multiline flag) matches a string exactly when it
is literally `"production"` or literally `"development"`. -/

/-- Truthiness of `opts.env.match(/^(?:production|development)$/)`. -/
def envValid (env : String) : Bool :=
  env == "production" || env == "development"

/-- The `frontend-build` command body up to and including the environment sanity
check: on an invalid environment it throws `invalid environment "<env>"` before any
pass runs; otherwise it proceeds (the passes themselves are modelled separately).
The payload records that zero passes have executed at the moment the check fires. -/
def envCheck (env : String) : Except String Unit :=
  if envValid env then Except.ok ()
  else Except.error ("invalid environment \"" ++ env ++ "\"")

/-! ### PASS 1: linting (`Pass1` / `doLint`, src lines 96–224)

`doLint` globs the files of one category, invokes the category's linter, and folds
its boolean return into `passed` via `passed &= await linter(...)` — a bitwise AND
after number coercion, so `passed` holds 0 or 1.  `Pass1` calls `doLint`
unconditionally for the five categories JS, HTML, CSS, YAML, JSON and returns
`passed`.  A linter is modelled as its pass/fail flag per category name. -/

structure Pass1State where
  /-- Variable `passed`: `let passed = true`, thereafter a 0/1 number (the `&=` coercion). -/
  passed : Nat
  /-- Counter `rounds`: incremented once per `doLint` call (drives the progress bar). -/
  rounds : Nat
  /-- trace of the categories `doLint` was invoked for, in order. -/
  invoked : List String
  deriving Repr, DecidableEq

/-- One `doLint(ctx, linter, proc, ext)` call: invoke the category's linter and fold
its boolean result into `passed` with `&=` (bitwise AND on the 0/1 coercion). -/
def doLint (linter : String → Bool) (ctx : String) (s : Pass1State) : Pass1State :=
  { passed := s.passed &&& (linter ctx).toNat
    rounds := s.rounds + 1
    invoked := s.invoked ++ [ctx] }

/-- Function `Pass1`: run `doLint` for all five categories in order, unconditionally, and
return the final state (the script returns `passed`; we keep the trace too). -/
def Pass1 (linter : String → Bool) : Pass1State :=
  let s : Pass1State := { passed := Bool.true.toNat, rounds := 0, invoked := [] }
  let s := doLint linter "JS" s
  let s := doLint linter "HTML" s
  let s := doLint linter "CSS" s
  let s := doLint linter "YAML" s
  let s := doLint linter "JSON" s
  s

/-! ### PASS 2: bundling (`Pass2`, src lines 230–366)

`Pass2` writes a temporary Webpack configuration, spawns the Webpack CLI, collects
its standard output, and in the child's `close` handler parses that output as JSON:

    try { stats = JSON.parse(stdout) }
    catch (ex) {
        process.stderr.write(`ERROR: failed to parse JSON output of Webpack:\n${stdout}`)
        reject(stdout)
    }
    if (code === 0) resolve(stats)
    else resolve(stats) /* no need to reject */

The `catch` branch does not return, so after a parse failure the handler still
reaches `resolve(stats)` with `stats` undefined — but a promise settles once, and
the earlier `reject(stdout)` wins.  We model the handler as the ordered list of its
settle attempts and take the first.  On a successful settle, `Pass2` reads
`stats.errors` / `stats.warnings` and returns their emptiness conjunction. -/

/-- Outcome of settling a JavaScript promise. -/
inductive PromiseResult (ε : Type) (α : Type) : Type where
  | rejected (e : ε)
  | resolved (a : α)
  deriving Repr, DecidableEq

/-- The slice of the Webpack `--json` report that `Pass2`'s pass/fail logic reads. -/
structure WebpackStats where
  errors : List String
  warnings : List String
  deriving Repr, DecidableEq

/-- The settle attempts of the `close` handler, in program order: `reject(stdout)`
from the catch branch when the parse failed, then `resolve(stats)` from whichever
arm of the exit-code conditional runs (`stats` is the parse result, undefined when
parsing failed — hence `Option`). -/
def closeAttempts (parse : Option WebpackStats) (stdout : String) (code : Int) :
    List (PromiseResult String (Option WebpackStats)) :=
  (match parse with
   | none => [PromiseResult.rejected stdout]
   | some _ => []) ++
  (if code = 0 then [PromiseResult.resolved parse]
   else [PromiseResult.resolved parse])

/-- What the `close` handler writes to the error stream: the parse-failure message,
with the raw collected standard output embedded. -/
def closeStderr (parse : Option WebpackStats) (stdout : String) : List String :=
  match parse with
  | none => ["ERROR: failed to parse JSON output of Webpack:\n" ++ stdout]
  | some _ => []

/-- A promise settles with its first settle attempt; later attempts are ignored.
The attempt list of the `close` handler is never empty. -/
def closeSettle (parse : Option WebpackStats) (stdout : String) (code : Int) :
    PromiseResult String (Option WebpackStats) :=
  (closeAttempts parse stdout code).headD (PromiseResult.resolved none)

/-- Result of one `Pass2()` call: the relevant error-stream lines, and either the
boolean `stats.errors.length === 0 && stats.warnings.length === 0` or the value the
awaited promise (and hence `Pass2` itself) rejected with. -/
structure Pass2Result where
  stderr : List String
  result : Except String Bool
  deriving Repr

/-- Function `Pass2`, parameterised by the subprocess outcome: `parse` is the JSON-parse
result of the collected standard output `stdout`, `code` the exit code.  If the
awaited spawn promise rejects, the `await` inside `Pass2` throws and `Pass2`'s own
promise rejects with the same value; otherwise `Pass2` renders its report tables and
returns `stats.errors.length === 0 && stats.warnings.length === 0`. -/
def Pass2 (parse : Option WebpackStats) (stdout : String) (code : Int) : Pass2Result :=
  match closeSettle parse stdout code with
  | PromiseResult.rejected e =>
      { stderr := closeStderr parse stdout, result := Except.error e }
  | PromiseResult.resolved none =>
      -- `stats.errors` on an undefined `stats` would throw; unreachable because a
      -- failed parse always rejects first (see `Pass2_resolved_not_none` below).
      { stderr := closeStderr parse stdout
        result := Except.error "TypeError: stats is undefined" }
  | PromiseResult.resolved (some stats) =>
      { stderr := closeStderr parse stdout
        result := Except.ok (stats.errors.isEmpty && stats.warnings.isEmpty) }

/-! ### MAIN: `singleRun` (src lines 373–383)

    const singleRun = async () => {
        let passed = await Pass1()
        if (passed)
            passed = await Pass2()
        if (opts.beep) { if (passed) beep(1) else beep([0,100,500]) }
    }

Note that `singleRun` never returns `passed`: its return value is `undefined`.
If `Pass2` rejects, the `await` throws and `singleRun`'s promise rejects (the beep
never happens).  -/

structure SingleRunOutcome where
  /-- the value `singleRun` resolves with — always `undefined`. -/
  ret : JSVal
  /-- Beep selection: `some true` = success beep `beep(1)`; `some false` = failure pattern
  `beep([0,100,500])`; `none` = `opts.beep` disabled. -/
  beeped : Option Bool
  /-- whether `Pass2` was invoked during this run. -/
  pass2Invoked : Bool
  /-- the value of `passed` after the conditional bundling step. -/
  passedFinal : JSVal
  /-- the error-stream lines of `Pass2` (empty when `Pass2` was not invoked). -/
  stderr : List String
  deriving Repr, DecidableEq

/-- Function `singleRun`, parameterised by the linter flags and the bundler subprocess
outcome.  `if (passed)` tests JavaScript truthiness of the 0/1 number `Pass1`
returned; only in the truthy case is `Pass2` invoked. -/
def singleRun (linter : String → Bool) (parse : Option WebpackStats)
    (stdout : String) (code : Int) (beepOpt : Bool) :
    Except String SingleRunOutcome :=
  let passed : JSVal := JSVal.num (Pass1 linter).passed
  if truthy passed then
    let p2 := Pass2 parse stdout code
    match p2.result with
    | Except.error e => Except.error e
    | Except.ok b =>
        let passed : JSVal := JSVal.bool b
        Except.ok { ret := JSVal.undef
                    beeped := if beepOpt then some (truthy passed) else none
                    pass2Invoked := true
                    passedFinal := passed
                    stderr := p2.stderr }
  else
    Except.ok { ret := JSVal.undef
                beeped := if beepOpt then some (truthy passed) else none
                pass2Invoked := false
                passedFinal := passed
                stderr := [] }

/-! ### Watch mode (src lines 386–454)

The watch branch closes over six mutable variables

    let first = true; let ready = false; let need = false
    let changed = {}; let timer = null; let running = false

and installs three callbacks on the single-threaded event loop:

  * `watcher.on("ready")`   — `timer = setTimeout(handler, 0); ready = true`;
  * `watcher.on("all")`     — on a change: if `ready`, set `need`, record the path
    in `changed`, and if not `running`, clear any outstanding timer and schedule
    `handler` after the 1 s settle delay;
  * `handler` (async)       — set `running`, print the changed-files summary unless
    this is the first run, reset `need`/`changed`, `await singleRun()`, print the
    idle banner, clear `running`, and if `need` was set meanwhile, clear and
    re-schedule a zero-delay timer.

We model this as a labelled transition system over the closure state plus the event
loop's pending-timer queue.  `handler` has one suspension point (`await
singleRun()`); a handler invocation is therefore two atomic steps: the timer firing
(everything before the `await`) and the `singleRun` promise settling (everything
after it).  If `singleRun` rejects — which `Pass2` does on unparseable bundler
output — the `await` throws, `handler`'s promise rejects, and the code after the
`await` never runs.  Timestamps are milliseconds; a timer scheduled at time `t`
with delay `d` fires at `t + d`. -/

/-- Effect of `changed[path] = true` on a JavaScript object used as a set: a new key is
appended, an existing key keeps its position — `Object.keys` later yields the
distinct paths in first-insertion order. -/
def changedAdd (changed : List String) (path : String) : List String :=
  if path ∈ changed then changed else changed ++ [path]

/-- The closure state of the watch branch, together with the event loop's pending
timer queue.  `timerVar` is the `timer` variable (it keeps holding a handle after
that timer fired); `pending` holds the actually scheduled, not-yet-fired timers as
(handle, absolute fire time) pairs; `nextId` supplies fresh handles.  `awaiting` is
true exactly while a `singleRun()` promise is in flight inside `handler`. -/
structure LoopState where
  first : Bool
  ready : Bool
  need : Bool
  changed : List String
  timerVar : Option Nat
  running : Bool
  awaiting : Bool
  pending : List (Nat × Nat)
  nextId : Nat
  deriving Repr, DecidableEq

/-- The state at `new Promise(...)` entry, before any callback has run. -/
def initLoop : LoopState :=
  { first := true, ready := false, need := false, changed := []
    timerVar := none, running := false, awaiting := false
    pending := [], nextId := 0 }

/-- Events the loop reacts to: the watcher's one-time `ready`, a filesystem change
carrying a path, a pending timer firing (invoking `handler` up to its `await`), and
the awaited `singleRun()` promise settling (`ok := false` models rejection). -/
inductive Ev : Type where
  | ready
  | change (path : String)
  | fire (id : Nat)
  | done (ok : Bool)
  deriving Repr, DecidableEq

/-- Observable actions a step performs, for stating the scheduling claims. -/
inductive Act : Type where
  | schedule (id : Nat) (fireAt : Nat)
  | cancel (id : Nat)
  | summary (paths : List String)
  | runStart
  | idleBanner
  deriving Repr, DecidableEq

/-- Model of `clearTimeout(id)`: remove the timer from the queue; a no-op on a handle that
already fired. -/
def removeTimer (pending : List (Nat × Nat)) (id : Nat) : List (Nat × Nat) :=
  pending.filter (fun p => p.1 ≠ id)

/-- Callback `watcher.on("ready")` (src lines 437–441): schedule an immediate run and mark
the watcher ready. -/
def onReady (s : LoopState) (now : Nat) : LoopState × List Act :=
  ({ s with timerVar := some s.nextId
            pending := s.pending ++ [(s.nextId, now + 0)]
            nextId := s.nextId + 1
            ready := true },
   [Act.schedule s.nextId (now + 0)])

/-- Callback `watcher.on("all")` (src lines 442–453): ignore events before `ready`;
otherwise set `need`, record the path, and unless `running`, clear any outstanding
timer and schedule `handler` after the 1 s settle delay. -/
def onAll (s : LoopState) (now : Nat) (path : String) : LoopState × List Act :=
  if s.ready then
    let s1 := { s with need := true, changed := changedAdd s.changed path }
    if s1.running then (s1, [])
    else
      let cleared := match s1.timerVar with
        | some id => ({ s1 with pending := removeTimer s1.pending id }, [Act.cancel id])
        | none => (s1, ([] : List Act))
      let s2 := cleared.1
      ({ s2 with timerVar := some s2.nextId
                 pending := s2.pending ++ [(s2.nextId, now + 1000)]
                 nextId := s2.nextId + 1 },
       cleared.2 ++ [Act.schedule s2.nextId (now + 1000)])
  else (s, [])

/-- A pending timer fires: the event loop removes it from the queue and runs
`handler` through its `await singleRun()` (src lines 398–414): set `running`, print
the changed-files summary unless `first`, then reset `first`/`need`/`changed` and
start `singleRun`. -/
def onFire (s : LoopState) (id : Nat) : LoopState × List Act :=
  let s0 := { s with pending := removeTimer s.pending id }
  let acts := (if s0.first then [] else [Act.summary s0.changed]) ++ [Act.runStart]
  ({ s0 with running := true, first := false, need := false, changed := []
             awaiting := true },
   acts)

/-- The awaited `singleRun()` promise settles (src lines 414–424).  Resolution:
print the idle banner, clear `running`, and if `need` was set during the run, clear
any outstanding timer handle and schedule an immediate rerun.  Rejection: the
`await` throws, so none of that code runs — only the in-flight marker is gone. -/
def onDone (s : LoopState) (now : Nat) (ok : Bool) : LoopState × List Act :=
  if ok then
    let s1 := { s with awaiting := false, running := false }
    if s1.need then
      let cleared := match s1.timerVar with
        | some id => ({ s1 with pending := removeTimer s1.pending id }, [Act.cancel id])
        | none => (s1, ([] : List Act))
      let s2 := cleared.1
      ({ s2 with timerVar := some s2.nextId
                 pending := s2.pending ++ [(s2.nextId, now + 0)]
                 nextId := s2.nextId + 1 },
       [Act.idleBanner] ++ cleared.2 ++ [Act.schedule s2.nextId (now + 0)])
    else (s1, [Act.idleBanner])
  else
    ({ s with awaiting := false }, [])

/-- One transition of the loop at absolute time `now`. -/
def stepA (s : LoopState) (now : Nat) (e : Ev) : LoopState × List Act :=
  match e with
  | Ev.ready => onReady s now
  | Ev.change path => onAll s now path
  | Ev.fire id => onFire s id
  | Ev.done ok => onDone s now ok

/-- The state part of a transition. -/
def step (s : LoopState) (now : Nat) (e : Ev) : LoopState :=
  (stepA s now e).1

/-- Whether an event can occur at time `now` in state `s` under the event-loop
semantics: no event may be processed after a pending timer was already due (due
timers fire first), a timer fires exactly at its fire time and only if actually
pending, chokidar emits `ready` once, and `singleRun` settles only while it is in
flight.  Change events may arrive at any time. -/
def validStep (s : LoopState) (now : Nat) (e : Ev) : Bool :=
  s.pending.all (fun p => now ≤ p.2) &&
  match e with
  | Ev.ready => !s.ready
  | Ev.change _ => true
  | Ev.fire id => decide ((id, now) ∈ s.pending)
  | Ev.done _ => s.awaiting

/-- A timed event trace is valid from state `s` and lower time bound `t` when its
times are nondecreasing and every step is valid in the state reached so far. -/
def validFrom (s : LoopState) (t : Nat) : List (Nat × Ev) → Bool
  | [] => true
  | (now, e) :: rest =>
      Nat.ble t now && validStep s now e && validFrom (step s now e) now rest

/-- Run a trace from a state, accumulating the action log. -/
def execA (s : LoopState) : List (Nat × Ev) → LoopState × List Act
  | [] => (s, [])
  | (now, e) :: rest =>
      let r := stepA s now e
      let r2 := execA r.1 rest
      (r2.1, r.2 ++ r2.2)

/-- The state reached by a trace. -/
def exec (s : LoopState) (tr : List (Nat × Ev)) : LoopState :=
  (execA s tr).1

/-- A state of the watch loop is reachable when some valid trace from the initial
state ends there. -/
def Reachable (s : LoopState) : Prop :=
  ∃ tr : List (Nat × Ev), validFrom initLoop 0 tr = true ∧ exec initLoop tr = s

/-! ### The inductive invariant of the watch loop

In every reachable state: at most one timer is pending; while `handler` is running
no timer is pending at all (so no timer can fire and start a second handler); a
`singleRun` promise is in flight only while `running`; any pending timer is the one
held by the `timer` variable; and before the watcher is ready nothing has started.
-/

structure Inv (s : LoopState) : Prop where
  pending_le_one : s.pending.length ≤ 1
  running_pending : s.running = true → s.pending = []
  awaiting_running : s.awaiting = true → s.running = true
  pending_timerVar : ∀ p ∈ s.pending, s.timerVar = some p.1
  not_ready : s.ready = false → s.pending = [] ∧ s.running = false ∧ s.awaiting = false

theorem eq_singleton_of_length_le_one_of_mem {α : Type} {l : List α} {x : α}
    (h1 : l.length ≤ 1) (h2 : x ∈ l) : l = [x] := by
  cases l with
  | nil => cases h2
  | cons a t =>
    cases t with
    | nil => simp only [List.mem_singleton] at h2; subst h2; rfl
    | cons b t2 => simp [List.length_cons] at h1

theorem removeTimer_eq_nil_of_all {l : List (Nat × Nat)} {id : Nat}
    (h : ∀ p ∈ l, p.1 = id) : removeTimer l id = [] := by
  simp only [removeTimer, List.filter_eq_nil_iff]
  intro p hp
  simp [h p hp]

theorem removeTimer_nil {id : Nat} : removeTimer [] id = [] := rfl

theorem inv_initLoop : Inv initLoop := by
  refine ⟨?_, ?_, ?_, ?_, ?_⟩ <;> simp [initLoop]

theorem inv_onReady {s : LoopState} {now : Nat} (hI : Inv s) (hr : s.ready = false) :
    Inv (onReady s now).1 := by
  obtain ⟨hp, hrun, haw⟩ := hI.not_ready hr
  refine ⟨?_, ?_, ?_, ?_, ?_⟩ <;> simp [onReady, hp, hrun, haw]

theorem inv_onAll {s : LoopState} {now : Nat} {path : String} (hI : Inv s) :
    Inv (onAll s now path).1 := by
  obtain ⟨h1, h2, h3, h4, h5⟩ := hI
  by_cases hr : s.ready = true
  · by_cases hrn : s.running = true
    · refine ⟨?_, ?_, ?_, ?_, ?_⟩ <;> simp [onAll, hr, hrn, h1, h2 hrn]
    · have haw' : s.awaiting = false := by
        cases hq : s.awaiting with
        | false => rfl
        | true => exact absurd (h3 hq) hrn
      have hrn' : s.running = false := by
        cases hq : s.running with
        | false => rfl
        | true => exact absurd hq hrn
      cases hv : s.timerVar with
      | some id =>
        have hrem : removeTimer s.pending id = [] := by
          refine removeTimer_eq_nil_of_all ?_
          intro p hp
          have := h4 p hp
          rw [hv] at this
          exact (Option.some_inj.mp this).symm
        refine ⟨?_, ?_, ?_, ?_, ?_⟩ <;>
          simp [onAll, hr, hrn', hv, hrem, haw']
      | none =>
        have hpnil : s.pending = [] := by
          cases hq : s.pending with
          | nil => rfl
          | cons a t =>
            have := h4 a (by rw [hq]; exact List.mem_cons_self a t)
            rw [hv] at this
            cases this
        refine ⟨?_, ?_, ?_, ?_, ?_⟩ <;>
          simp [onAll, hr, hrn', hv, hpnil, haw']
  · have hr' : s.ready = false := by simp at hr; exact hr
    have : onAll s now path = (s, []) := by simp [onAll, hr']
    rw [this]
    exact ⟨h1, h2, h3, h4, h5⟩

theorem inv_onFire {s : LoopState} {now : Nat} {id : Nat} (hI : Inv s)
    (hmem : (id, now) ∈ s.pending) : Inv (onFire s id).1 := by
  obtain ⟨h1, h2, h3, h4, h5⟩ := hI
  have hsing : s.pending = [(id, now)] := eq_singleton_of_length_le_one_of_mem h1 hmem
  have hrdy : s.ready = true := by
    cases hq : s.ready with
    | false => rw [(h5 hq).1] at hmem; cases hmem
    | true => rfl
  have hrem : removeTimer s.pending id = [] := by
    rw [hsing]; simp [removeTimer]
  refine ⟨?_, ?_, ?_, ?_, ?_⟩ <;> simp [onFire, hrem, hrdy]

theorem inv_onDone {s : LoopState} {now : Nat} {ok : Bool} (hI : Inv s)
    (haw : s.awaiting = true) : Inv (onDone s now ok).1 := by
  obtain ⟨h1, h2, h3, h4, h5⟩ := hI
  have hrn : s.running = true := h3 haw
  have hpnil : s.pending = [] := h2 hrn
  have hrdy : s.ready = true := by
    cases hq : s.ready with
    | false => exact absurd hrn (by simp [(h5 hq).2.1])
    | true => rfl
  cases ok with
  | false =>
    refine ⟨?_, ?_, ?_, ?_, ?_⟩ <;> simp [onDone, hpnil, hrn, hrdy]
  | true =>
    by_cases hnd : s.need = true
    · cases hv : s.timerVar with
      | some id =>
        refine ⟨?_, ?_, ?_, ?_, ?_⟩ <;> simp [onDone, hnd, hv, hpnil, removeTimer, hrdy]
      | none =>
        refine ⟨?_, ?_, ?_, ?_, ?_⟩ <;> simp [onDone, hnd, hv, hpnil, hrdy]
    · have hnd' : s.need = false := by simp at hnd; exact hnd
      refine ⟨?_, ?_, ?_, ?_, ?_⟩ <;> simp [onDone, hnd', hpnil, hrdy]

theorem inv_step {s : LoopState} {now : Nat} {e : Ev}
    (hI : Inv s) (hV : validStep s now e = true) : Inv (step s now e) := by
  cases e with
  | ready =>
    have hr : s.ready = false := by
      simp [validStep, Bool.and_eq_true] at hV
      exact hV.2
    exact inv_onReady hI hr
  | change path => exact inv_onAll hI
  | fire id =>
    have hmem : (id, now) ∈ s.pending := by
      simp [validStep, Bool.and_eq_true] at hV
      exact hV.2
    exact inv_onFire hI hmem
  | done ok =>
    have haw : s.awaiting = true := by
      simp [validStep, Bool.and_eq_true] at hV
      exact hV.2
    exact inv_onDone hI haw

theorem inv_exec {tr : List (Nat × Ev)} :
    ∀ {s : LoopState} {t : Nat}, Inv s → validFrom s t tr = true → Inv (exec s tr) := by
  induction tr with
  | nil => intro s t hI _; exact hI
  | cons he rest ih =>
    intro s t hI hV
    obtain ⟨now, e⟩ := he
    simp only [validFrom, Bool.and_eq_true] at hV
    obtain ⟨⟨_, hstep⟩, hrest⟩ := hV
    have : exec s ((now, e) :: rest) = exec (step s now e) rest := by
      simp [exec, execA, step]
    rw [this]
    exact ih (inv_step hI hstep) hrest

theorem inv_reachable {s : LoopState} (h : Reachable s) : Inv s := by
  obtain ⟨tr, hV, hE⟩ := h
  rw [← hE]
  exact inv_exec inv_initLoop hV

/-! ### Helper lemmas about the pass pipeline -/

/-- The 0/1 aggregate of `Pass1` coincides with the logical AND of the five
category flags. -/
theorem Pass1_passed_eq (linter : String → Bool) :
    (Pass1 linter).passed =
      (linter "JS" && linter "HTML" && linter "CSS" && linter "YAML" &&
        linter "JSON").toNat := by
  cases hJ : linter "JS" <;> cases hH : linter "HTML" <;> cases hC : linter "CSS" <;>
    cases hY : linter "YAML" <;> cases hN : linter "JSON" <;>
      simp only [Pass1, doLint, hJ, hH, hC, hY, hN] <;> rfl

/-- A parse success settles the spawn promise by resolution with the parsed
statistics, whatever the exit code (both arms of the exit-code conditional
resolve). -/
theorem closeSettle_some (stats : WebpackStats) (stdout : String) (code : Int) :
    closeSettle (some stats) stdout code = PromiseResult.resolved (some stats) := by
  simp [closeSettle, closeAttempts]

/-- A parse failure settles the spawn promise by rejection with the raw collected
standard output: the `reject(stdout)` in the catch branch runs first, and the later
`resolve(stats)` is a no-op on an already-settled promise. -/
theorem closeSettle_none (stdout : String) (code : Int) :
    closeSettle none stdout code = PromiseResult.rejected stdout := by
  simp [closeSettle, closeAttempts]

theorem Pass2_some (stats : WebpackStats) (stdout : String) (code : Int) :
    Pass2 (some stats) stdout code =
      { stderr := []
        result := Except.ok (stats.errors.isEmpty && stats.warnings.isEmpty) } := by
  simp [Pass2, closeSettle_some, closeStderr]

theorem Pass2_none (stdout : String) (code : Int) :
    Pass2 none stdout code =
      { stderr := ["ERROR: failed to parse JSON output of Webpack:\n" ++ stdout]
        result := Except.error stdout } := by
  simp [Pass2, closeSettle_none, closeStderr]

/-! ### Claim theorems about the pass pipeline -/

/-- C6. All five lint categories (JS, HTML, CSS, YAML, JSON) are invoked in
every lint pass, in this order, even when an earlier category fails; the aggregate
lint result is the bitwise AND of the five 0/1 category flags, which coincides
with their logical AND — no short-circuiting between categories. -/
theorem Pass1_all_categories_bitand (linter : String → Bool) :
    (Pass1 linter).invoked = ["JS", "HTML", "CSS", "YAML", "JSON"] ∧
    (Pass1 linter).rounds = 5 ∧
    (Pass1 linter).passed =
      (linter "JS").toNat &&& (linter "HTML").toNat &&& (linter "CSS").toNat &&&
        (linter "YAML").toNat &&& (linter "JSON").toNat ∧
    (Pass1 linter).passed =
      (linter "JS" && linter "HTML" && linter "CSS" && linter "YAML" &&
        linter "JSON").toNat := by
  refine ⟨rfl, rfl, ?_, Pass1_passed_eq linter⟩
  cases hJ : linter "JS" <;> cases hH : linter "HTML" <;> cases hC : linter "CSS" <;>
    cases hY : linter "YAML" <;> cases hN : linter "JSON" <;>
      simp only [Pass1, doLint, hJ, hH, hC, hY, hN] <;> rfl

/-- C7. Whenever the lint pass fails (some category reported a failure, so the
conjunction of the five category flags is false), the run's overall outcome is
failure — `singleRun` resolves with its usual falsy `undefined` return value, the
final `passed` value is the falsy number 0, and the failure beep pattern is
selected when beeping is enabled — and `Pass2` is never invoked: the bundling step
is short-circuited. -/
theorem lint_failure_skips_Pass2 (linter : String → Bool) (parse : Option WebpackStats)
    (stdout : String) (code : Int) (beepOpt : Bool)
    (h : (linter "JS" && linter "HTML" && linter "CSS" && linter "YAML" &&
          linter "JSON") = false) :
    singleRun linter parse stdout code beepOpt =
      Except.ok { ret := JSVal.undef
                  beeped := if beepOpt then some false else none
                  pass2Invoked := false
                  passedFinal := JSVal.num 0
                  stderr := [] } := by
  have hp : (Pass1 linter).passed = 0 := by rw [Pass1_passed_eq linter, h]; rfl
  simp [singleRun, hp, truthy]

/-- C7 witness: all categories failing short-circuits `Pass2`. -/
theorem lint_failure_skips_Pass2_witness :
    ((fun _ => false : String → Bool) "JS" && (fun _ => false : String → Bool) "HTML" &&
      (fun _ => false : String → Bool) "CSS" && (fun _ => false : String → Bool) "YAML" &&
      (fun _ => false : String → Bool) "JSON") = false ∧
    singleRun (fun _ => false) none "" 0 true =
      Except.ok { ret := JSVal.undef
                  beeped := some false
                  pass2Invoked := false
                  passedFinal := JSVal.num 0
                  stderr := [] } := by
  refine ⟨by decide, ?_⟩
  have := lint_failure_skips_Pass2 (fun _ => false) none "" 0 true (by decide)
  simpa using this

/-- Model of `func` in one-time (non-watch) execution: the environment sanity check runs
first, before anything else, and a failed check throws without any pass executing;
otherwise `singleRun` executes.  The second component logs the passes that
actually ran. -/
def funcSingle (env : String) (linter : String → Bool) (parse : Option WebpackStats)
    (stdout : String) (code : Int) (beepOpt : Bool) :
    Except String SingleRunOutcome × List String :=
  match envCheck env with
  | Except.error e => (Except.error e, [])
  | Except.ok _ =>
      match singleRun linter parse stdout code beepOpt with
      | Except.error e => (Except.error e, ["Pass1", "Pass2"])
      | Except.ok r =>
          (Except.ok r, if r.pass2Invoked then ["Pass1", "Pass2"] else ["Pass1"])

/-- C9. Every environment string other than exactly `"production"` or exactly
`"development"` makes the command throw `invalid environment "<env>"` immediately,
with an empty pass log — no lint or bundle pass executes, whatever the linters and
the bundler would have done; and the two enumerated values pass the validation. -/
theorem invalid_env_fails_before_passes (env : String) (linter : String → Bool)
    (parse : Option WebpackStats) (stdout : String) (code : Int) (beepOpt : Bool)
    (h1 : env ≠ "production") (h2 : env ≠ "development") :
    funcSingle env linter parse stdout code beepOpt =
      (Except.error ("invalid environment \"" ++ env ++ "\""), []) ∧
    envValid "production" = true ∧ envValid "development" = true := by
  have hv : envValid env = false := by
    simp only [envValid, Bool.or_eq_false_iff, beq_eq_false_iff_ne, ne_eq]
    exact ⟨h1, h2⟩
  refine ⟨?_, rfl, rfl⟩
  simp [funcSingle, envCheck, hv]

/-- C9 witness: the environment string `"staging"` is rejected up front. -/
theorem invalid_env_fails_before_passes_witness :
    ("staging" : String) ≠ "production" ∧ ("staging" : String) ≠ "development" ∧
    (funcSingle "staging" (fun _ => true) none "" 0 false =
      (Except.error ("invalid environment \"" ++ "staging" ++ "\""), []) ∧
     envValid "production" = true ∧ envValid "development" = true) :=
  ⟨by decide, by decide,
   invalid_env_fails_before_passes "staging" (fun _ => true) none "" 0 false
     (by decide) (by decide)⟩

/-- C2 counterexample: with every lint category passing and a clean bundler
report — the very case in which the claim asserts the run returns the boolean
`true` — `singleRun` resolves with the JavaScript value `undefined`, not with a
boolean: the script's `singleRun` body never returns `passed`. -/
theorem singleRun_never_returns_boolean :
    (singleRun (fun _ => true) (some { errors := [], warnings := [] }) "{}" 0
        false).map (fun r => r.ret) = Except.ok JSVal.undef ∧
    JSVal.undef ≠ JSVal.bool true :=
  ⟨rfl, by decide⟩

/-- C2 (amended).  `singleRun` always resolves with `undefined`, never with a
boolean; its internal final `passed` value — observable only through the beep
notification — is truthy iff every lint category reports zero findings (each
category flag being tied to its findings count by the linter-adapter contract) and
the bundler reports zero errors and zero warnings. -/
theorem singleRun_internal_pass_iff (linter : String → Bool)
    (fJS fHTML fCSS fYAML fJSON : Nat) (stats : WebpackStats)
    (stdout : String) (code : Int) (beepOpt : Bool)
    (hJ : linter "JS" = true ↔ fJS = 0)
    (hH : linter "HTML" = true ↔ fHTML = 0)
    (hC : linter "CSS" = true ↔ fCSS = 0)
    (hY : linter "YAML" = true ↔ fYAML = 0)
    (hN : linter "JSON" = true ↔ fJSON = 0) :
    (singleRun linter (some stats) stdout code beepOpt).map (fun r => r.ret) =
      Except.ok JSVal.undef ∧
    ((singleRun linter (some stats) stdout code beepOpt).map
        (fun r => truthy r.passedFinal) = Except.ok true ↔
      (fJS = 0 ∧ fHTML = 0 ∧ fCSS = 0 ∧ fYAML = 0 ∧ fJSON = 0 ∧
       stats.errors = [] ∧ stats.warnings = [])) := by
  cases hP : (linter "JS" && linter "HTML" && linter "CSS" && linter "YAML" &&
      linter "JSON") with
  | true =>
    obtain ⟨⟨⟨⟨pJ, pH⟩, pC⟩, pY⟩, pN⟩ :
        (((linter "JS" = true ∧ linter "HTML" = true) ∧ linter "CSS" = true) ∧
          linter "YAML" = true) ∧ linter "JSON" = true := by
      simpa [Bool.and_eq_true] using hP
    have hp1 : (Pass1 linter).passed = 1 := by rw [Pass1_passed_eq linter, hP]; rfl
    constructor
    · simp [singleRun, hp1, truthy, Pass2_some, Except.map]
    · simp only [singleRun, hp1, truthy, Pass2_some, Except.map]
      simp [hJ.mp pJ, hH.mp pH, hC.mp pC, hY.mp pY, hN.mp pN,
        List.isEmpty_iff, and_assoc]
  | false =>
    have hp0 : (Pass1 linter).passed = 0 := by rw [Pass1_passed_eq linter, hP]; rfl
    constructor
    · simp [singleRun, hp0, truthy, Except.map]
    · constructor
      · intro hEq
        simp [singleRun, hp0, truthy, Except.map] at hEq
      · rintro ⟨zJ, zH, zC, zY, zN, _, _⟩
        have : (linter "JS" && linter "HTML" && linter "CSS" && linter "YAML" &&
            linter "JSON") = true := by
          simp [Bool.and_eq_true, hJ.mpr zJ, hH.mpr zH, hC.mpr zC, hY.mpr zY,
            hN.mpr zN]
        rw [hP] at this
        cases this

/-- C2 (amended) witness: all categories clean and a clean bundler report. -/
theorem singleRun_internal_pass_iff_witness :
    ((fun _ => true : String → Bool) "JS" = true ↔ (0 : Nat) = 0) ∧
    ((singleRun (fun _ => true) (some { errors := [], warnings := [] }) "s" 0
        true).map (fun r => r.ret) = Except.ok JSVal.undef ∧
     ((singleRun (fun _ => true) (some { errors := [], warnings := [] }) "s" 0
          true).map (fun r => truthy r.passedFinal) = Except.ok true ↔
       ((0 : Nat) = 0 ∧ (0 : Nat) = 0 ∧ (0 : Nat) = 0 ∧ (0 : Nat) = 0 ∧
        (0 : Nat) = 0 ∧ ([] : List String) = [] ∧ ([] : List String) = []))) :=
  ⟨by decide,
   singleRun_internal_pass_iff (fun _ => true) 0 0 0 0 0
     { errors := [], warnings := [] } "s" 0 true
     (by decide) (by decide) (by decide) (by decide) (by decide)⟩

/-- The loop state during the first run: the watcher became ready at time 0, the
zero-delay first-run timer fired at time 0, and `singleRun` is in flight. -/
def firstRunState : LoopState := exec initLoop [(0, Ev.ready), (0, Ev.fire 0)]

/-- Is an action the scheduling of a timer? -/
def isSchedule : Act → Bool
  | Act.schedule _ _ => true
  | _ => false

/-- C1 counterexample: on unparseable bundler output (`"not json"`, exit code
0) the run does not resolve with a failure result — `Pass2` rejects with the raw
output — and in watch mode the loop does not return to idle waiting: on the
rejection of the first run's `singleRun`, `running` stays true and no idle banner
is ever emitted. -/
theorem unparseable_output_rejects_counterexample :
    (Pass2 none "not json" 0).result ≠ Except.ok false ∧
    (Pass2 none "not json" 0).result = Except.error "not json" ∧
    validFrom initLoop 0 [(0, Ev.ready), (0, Ev.fire 0), (5, Ev.done false)] = true ∧
    (exec initLoop [(0, Ev.ready), (0, Ev.fire 0), (5, Ev.done false)]).running = true ∧
    Act.idleBanner ∉
      (execA initLoop [(0, Ev.ready), (0, Ev.fire 0), (5, Ev.done false)]).2 := by
  refine ⟨?_, ?_, by decide, by decide, by decide⟩
  · simp [Pass2_none]
  · simp [Pass2_none]

/-- C1 (amended).  When the bundler subprocess's standard output fails to
parse as JSON, the raw output is surfaced on the error stream; but the run does
not resolve with a pass/fail result — the spawn promise, and with it `Pass2` and
`singleRun`, reject with the raw output — and in watch mode the rejection of the
handler's `await` skips the idle banner, the `running = false` reset and any
rescheduling, so the loop does not return to idle waiting. -/
theorem unparseable_output_rejects (stdout : String) (code : Int)
    (linter : String → Bool) (beepOpt : Bool) (s : LoopState) (now : Nat)
    (hlint : (linter "JS" && linter "HTML" && linter "CSS" && linter "YAML" &&
          linter "JSON") = true)
    (hrun : s.running = true) :
    (Pass2 none stdout code).stderr =
      ["ERROR: failed to parse JSON output of Webpack:\n" ++ stdout] ∧
    (Pass2 none stdout code).result = Except.error stdout ∧
    singleRun linter none stdout code beepOpt = Except.error stdout ∧
    (stepA s now (Ev.done false)).1.running = true ∧
    (stepA s now (Ev.done false)).1.pending = s.pending ∧
    (stepA s now (Ev.done false)).2 = [] := by
  have hp1 : (Pass1 linter).passed = 1 := by rw [Pass1_passed_eq linter, hlint]; rfl
  refine ⟨by simp [Pass2_none], by simp [Pass2_none], ?_, ?_, ?_, ?_⟩
  · simp [singleRun, hp1, truthy, Pass2_none]
  · simp [stepA, onDone, hrun]
  · simp [stepA, onDone]
  · simp [stepA, onDone]

/-- C1 (amended) witness: unparseable output during the first watched run. -/
theorem unparseable_output_rejects_witness :
    ((fun _ => true : String → Bool) "JS" && (fun _ => true : String → Bool) "HTML" &&
      (fun _ => true : String → Bool) "CSS" && (fun _ => true : String → Bool) "YAML" &&
      (fun _ => true : String → Bool) "JSON") = true ∧
    firstRunState.running = true ∧
    ((Pass2 none "oops" 1).stderr =
        ["ERROR: failed to parse JSON output of Webpack:\n" ++ "oops"] ∧
     (Pass2 none "oops" 1).result = Except.error "oops" ∧
     singleRun (fun _ => true) none "oops" 1 false = Except.error "oops" ∧
     (stepA firstRunState 5 (Ev.done false)).1.running = true ∧
     (stepA firstRunState 5 (Ev.done false)).1.pending = firstRunState.pending ∧
     (stepA firstRunState 5 (Ev.done false)).2 = []) :=
  ⟨by decide, by decide,
   unparseable_output_rejects "oops" 1 (fun _ => true) false firstRunState 5
     (by decide) (by decide)⟩

/-- C5 counterexample: the watch loop can reach a state — after a run whose
`singleRun` rejected — in which `running` is still true although no Pass Sequencer
run is in flight, refuting "`running` is true for the entire duration of one Pass
Sequencer invocation and false otherwise". -/
theorem running_stuck_after_rejection_counterexample :
    validFrom initLoop 0 [(0, Ev.ready), (0, Ev.fire 0), (9, Ev.done false)] = true ∧
    (exec initLoop [(0, Ev.ready), (0, Ev.fire 0), (9, Ev.done false)]).running = true ∧
    (exec initLoop [(0, Ev.ready), (0, Ev.fire 0), (9, Ev.done false)]).awaiting = false :=
  ⟨by decide, by decide, by decide⟩

/-- C5 (amended).  In every reachable state of the watch loop at most one Pass
Sequencer run is in flight: a run in flight implies `running` is true, at most one
timer is pending, and while `running` is true no timer is pending at all, so no
timer-fire event is admissible — a second invocation of the handler never starts
while `running` is true.  (The claim's converse direction — `running` false
whenever no run is in flight — fails after a rejected run, see the
counterexample.) -/
theorem at_most_one_run_in_flight (s : LoopState) (now : Nat) (id : Nat)
    (hR : Reachable s) :
    (s.awaiting = true → s.running = true) ∧
    s.pending.length ≤ 1 ∧
    (s.running = true → s.pending = [] ∧ validStep s now (Ev.fire id) = false) := by
  obtain ⟨h1, h2, h3, h4, h5⟩ := inv_reachable hR
  refine ⟨h3, h1, fun hr => ⟨h2 hr, ?_⟩⟩
  simp [validStep, h2 hr]

/-- C5 (amended) witness: the state during the first run. -/
theorem at_most_one_run_in_flight_witness :
    Reachable firstRunState ∧
    ((firstRunState.awaiting = true → firstRunState.running = true) ∧
     firstRunState.pending.length ≤ 1 ∧
     (firstRunState.running = true →
       firstRunState.pending = [] ∧ validStep firstRunState 3 (Ev.fire 7) = false)) :=
  ⟨⟨[(0, Ev.ready), (0, Ev.fire 0)], by decide, by decide⟩,
   at_most_one_run_in_flight firstRunState 3 7
     ⟨[(0, Ev.ready), (0, Ev.fire 0)], by decide, by decide⟩⟩

/-- C4. A change event arriving while a run is in progress (`ready` and
`running` both true) schedules and cancels nothing at that moment — it only adds
the path to the ChangeSet and sets `needsRerun` — and when the current run
completes (its `singleRun` promise resolves) with `needsRerun` set, exactly one
additional rerun is scheduled, via a zero-delay timer: the pending-timer queue
becomes exactly one timer due immediately, and the completion step emits exactly
one schedule action. -/
theorem change_during_run_coalesced (s s2 : LoopState) (now now2 : Nat)
    (path : String)
    (hready : s.ready = true) (hrun : s.running = true)
    (hR : Reachable s2) (haw : s2.awaiting = true) (hneed : s2.need = true) :
    stepA s now (Ev.change path) =
      ({ s with need := true, changed := changedAdd s.changed path }, []) ∧
    (stepA s2 now2 (Ev.done true)).1.pending = [(s2.nextId, now2 + 0)] ∧
    (stepA s2 now2 (Ev.done true)).2.filter isSchedule =
      [Act.schedule s2.nextId (now2 + 0)] := by
  obtain ⟨h1, h2, h3, h4, h5⟩ := inv_reachable hR
  have hrun2 : s2.running = true := h3 haw
  have hpnil : s2.pending = [] := h2 hrun2
  refine ⟨by simp [stepA, onAll, hready, hrun], ?_, ?_⟩
  · cases hv : s2.timerVar <;>
      simp [stepA, onDone, hneed, hv, hpnil, removeTimer]
  · cases hv : s2.timerVar <;>
      simp [stepA, onDone, hneed, hv, hpnil, removeTimer, isSchedule]

/-- C4 witness: a change at time 3 during the first run, which completes at
time 2000. -/
theorem change_during_run_coalesced_witness :
    firstRunState.ready = true ∧ firstRunState.running = true ∧
    Reachable (exec initLoop [(0, Ev.ready), (0, Ev.fire 0), (3, Ev.change "a")]) ∧
    (exec initLoop [(0, Ev.ready), (0, Ev.fire 0), (3, Ev.change "a")]).awaiting = true ∧
    (exec initLoop [(0, Ev.ready), (0, Ev.fire 0), (3, Ev.change "a")]).need = true ∧
    (stepA firstRunState 3 (Ev.change "a") =
      ({ firstRunState with need := true
                            changed := changedAdd firstRunState.changed "a" }, []) ∧
     (stepA (exec initLoop [(0, Ev.ready), (0, Ev.fire 0), (3, Ev.change "a")]) 2000
        (Ev.done true)).1.pending =
       [((exec initLoop [(0, Ev.ready), (0, Ev.fire 0), (3, Ev.change "a")]).nextId,
         2000 + 0)] ∧
     (stepA (exec initLoop [(0, Ev.ready), (0, Ev.fire 0), (3, Ev.change "a")]) 2000
        (Ev.done true)).2.filter isSchedule =
       [Act.schedule
         (exec initLoop [(0, Ev.ready), (0, Ev.fire 0), (3, Ev.change "a")]).nextId
         (2000 + 0)]) :=
  ⟨rfl, rfl, ⟨[(0, Ev.ready), (0, Ev.fire 0), (3, Ev.change "a")], by decide, rfl⟩,
   rfl, rfl,
   change_during_run_coalesced firstRunState
     (exec initLoop [(0, Ev.ready), (0, Ev.fire 0), (3, Ev.change "a")]) 3 2000 "a"
     rfl rfl
     ⟨[(0, Ev.ready), (0, Ev.fire 0), (3, Ev.change "a")], by decide, rfl⟩
     rfl rfl⟩

/-- C10. A change event that arrives before the watcher's `ready` event leaves
the entire watcher state unchanged and performs no action: no path is recorded, no
`needsRerun` flag is set, and no timer is scheduled or cancelled. -/
theorem change_before_ready_ignored (s : LoopState) (now : Nat) (path : String)
    (h : s.ready = false) :
    stepA s now (Ev.change path) = (s, []) := by
  simp [stepA, onAll, h]

/-- C10 witness: a change at the initial state (watcher not yet ready). -/
theorem change_before_ready_ignored_witness :
    initLoop.ready = false ∧
    stepA initLoop 7 (Ev.change "src/app.js") = (initLoop, []) :=
  ⟨rfl, change_before_ready_ignored initLoop 7 "src/app.js" rfl⟩

/-! ### Trace lemmas for the changed-files summary -/

/-- Is a trace entry a timer firing (handler invocation)? -/
def isFire : Nat × Ev → Bool
  | (_, Ev.fire _) => true
  | _ => false

/-- The changed paths of a trace, in event order. -/
def changePaths (tr : List (Nat × Ev)) : List String :=
  tr.filterMap (fun te => match te.2 with | Ev.change p => some p | _ => none)

/-- Deduplicate paths by first insertion, the way a JavaScript object used as a
set does. -/
def dedupPaths (l : List String) : List String :=
  l.foldl changedAdd []

theorem exec_cons (s : LoopState) (now : Nat) (e : Ev) (tr : List (Nat × Ev)) :
    exec s ((now, e) :: tr) = exec (step s now e) tr := by
  simp [exec, execA, step]

theorem execA_cons (s : LoopState) (now : Nat) (e : Ev) (tr : List (Nat × Ev)) :
    execA s ((now, e) :: tr) =
      ((execA (step s now e) tr).1,
       (stepA s now e).2 ++ (execA (step s now e) tr).2) := by
  simp [execA, step]

theorem exec_append (tr1 tr2 : List (Nat × Ev)) :
    ∀ s : LoopState, exec s (tr1 ++ tr2) = exec (exec s tr1) tr2 := by
  induction tr1 with
  | nil => intro s; simp [exec, execA]
  | cons te rest ih =>
    intro s
    obtain ⟨now, e⟩ := te
    rw [List.cons_append, exec_cons, exec_cons, ih]

/-- Only a timer firing resets `first`; every other event preserves it. -/
theorem step_first (s : LoopState) (now : Nat) (e : Ev) :
    (step s now e).first = (s.first && !isFire (now, e)) := by
  cases e with
  | ready => simp [step, stepA, onReady, isFire]
  | change path =>
    cases hr : s.ready <;> cases hrn : s.running <;> cases hv : s.timerVar <;>
      simp [step, stepA, onAll, hr, hrn, hv, isFire]
  | fire id => simp [step, stepA, onFire, isFire]
  | done ok =>
    cases ok <;> cases hnd : s.need <;> cases hv : s.timerVar <;>
      simp [step, stepA, onDone, hnd, hv, isFire]

/-- Flag `ready` never reverts to false. -/
theorem step_ready (s : LoopState) (now : Nat) (e : Ev) (h : s.ready = true) :
    (step s now e).ready = true := by
  cases e with
  | ready => simp [step, stepA, onReady]
  | change path =>
    cases hrn : s.running <;> cases hv : s.timerVar <;>
      simp [step, stepA, onAll, h, hrn, hv]
  | fire id => simp [step, stepA, onFire, h]
  | done ok =>
    cases ok <;> cases hnd : s.need <;> cases hv : s.timerVar <;>
      simp [step, stepA, onDone, hnd, hv, h]

/-- Flag `first` after a trace: true exactly when it was true and no timer fired. -/
theorem exec_first (tr : List (Nat × Ev)) :
    ∀ s : LoopState, (exec s tr).first = (s.first && tr.all (fun te => !isFire te)) := by
  induction tr with
  | nil => intro s; simp [exec, execA]
  | cons te rest ih =>
    intro s
    obtain ⟨now, e⟩ := te
    rw [exec_cons, ih, step_first]
    simp [Bool.and_assoc]

/-- Along a fire-free trace from a ready state, the ChangeSet accumulates exactly
the changed paths (deduplicated via `changedAdd`), and `first` and `ready` are
untouched. -/
theorem exec_no_fire (tr : List (Nat × Ev)) :
    ∀ s : LoopState, s.ready = true → tr.all (fun te => !isFire te) = true →
      (exec s tr).changed = (changePaths tr).foldl changedAdd s.changed ∧
      (exec s tr).first = s.first ∧ (exec s tr).ready = true := by
  induction tr with
  | nil => intro s h _; exact ⟨rfl, rfl, h⟩
  | cons te rest ih =>
    intro s h hall
    obtain ⟨now, e⟩ := te
    simp only [List.all_cons, Bool.and_eq_true] at hall
    obtain ⟨hnf, hrest⟩ := hall
    rw [exec_cons]
    have hrdy : (step s now e).ready = true := step_ready s now e h
    have ihs := ih (step s now e) hrdy hrest
    cases e with
    | ready =>
      have hch : (step s now Ev.ready).changed = s.changed := by
        simp [step, stepA, onReady]
      have hfi : (step s now Ev.ready).first = s.first := by
        simp [step, stepA, onReady]
      rw [hch, hfi] at ihs
      simpa [changePaths] using ihs
    | change p =>
      have hch : (step s now (Ev.change p)).changed = changedAdd s.changed p := by
        cases hrn : s.running <;> cases hv : s.timerVar <;>
          simp [step, stepA, onAll, h, hrn, hv]
      have hfi : (step s now (Ev.change p)).first = s.first := by
        cases hrn : s.running <;> cases hv : s.timerVar <;>
          simp [step, stepA, onAll, h, hrn, hv]
      rw [hch, hfi] at ihs
      simpa [changePaths] using ihs
    | fire id => simp [isFire] at hnf
    | done ok =>
      have hch : (step s now (Ev.done ok)).changed = s.changed := by
        cases ok <;> cases hnd : s.need <;> cases hv : s.timerVar <;>
          simp [step, stepA, onDone, hnd, hv]
      have hfi : (step s now (Ev.done ok)).first = s.first := by
        cases ok <;> cases hnd : s.need <;> cases hv : s.timerVar <;>
          simp [step, stepA, onDone, hnd, hv]
      rw [hch, hfi] at ihs
      simpa [changePaths] using ihs

/-- A valid concatenation has a valid left part. -/
theorem validFrom_append_left (tr1 tr2 : List (Nat × Ev)) :
    ∀ (s : LoopState) (t : Nat), validFrom s t (tr1 ++ tr2) = true →
      validFrom s t tr1 = true := by
  induction tr1 with
  | nil => intro s t _; rfl
  | cons te rest ih =>
    intro s t h
    obtain ⟨now, e⟩ := te
    simp only [List.cons_append, validFrom, Bool.and_eq_true] at h ⊢
    exact ⟨h.1, ih _ _ h.2⟩

/-- In a valid trace, the step at any position is valid in the state reached by
the prefix before it. -/
theorem validStep_at_append (tr1 : List (Nat × Ev)) :
    ∀ (s : LoopState) (t now : Nat) (e : Ev) (tr2 : List (Nat × Ev)),
      validFrom s t (tr1 ++ (now, e) :: tr2) = true →
      validStep (exec s tr1) now e = true := by
  induction tr1 with
  | nil =>
    intro s t now e tr2 h
    simp only [List.nil_append, validFrom, Bool.and_eq_true] at h
    have : exec s [] = s := rfl
    rw [this]
    exact h.1.2
  | cons te rest ih =>
    intro s t now e tr2 h
    obtain ⟨n2, e2⟩ := te
    simp only [List.cons_append, validFrom, Bool.and_eq_true] at h
    rw [exec_cons]
    exact ih _ _ _ _ _ h.2

/-- A timer can only fire after the watcher became ready. -/
theorem ready_of_fire_valid {s : LoopState} {now id : Nat} (hI : Inv s)
    (hV : validStep s now (Ev.fire id) = true) : s.ready = true := by
  have hmem : (id, now) ∈ s.pending := by
    simp only [validStep, Bool.and_eq_true, decide_eq_true_eq] at hV
    exact hV.2
  cases hq : s.ready with
  | true => rfl
  | false => rw [(hI.not_ready hq).1] at hmem; cases hmem

/-- C8. In every valid watch trace, the first handler invocation — the one
triggered by the watcher-ready event, with no timer having fired before — prints
no changed-files summary; and every later invocation prints a summary listing
exactly the distinct paths accumulated in the ChangeSet since the previous
invocation, deduplicated by path in first-insertion order. -/
theorem first_run_no_summary_then_exact (pre mid : List (Nat × Ev))
    (t t2 : Nat) (id id2 : Nat)
    (hV : validFrom initLoop 0
        (pre ++ (t, Ev.fire id) :: (mid ++ [(t2, Ev.fire id2)])) = true)
    (hmid : mid.all (fun te => !isFire te) = true) :
    (pre.all (fun te => !isFire te) = true →
      (stepA (exec initLoop pre) t (Ev.fire id)).2 = [Act.runStart]) ∧
    (stepA (exec initLoop (pre ++ (t, Ev.fire id) :: mid)) t2 (Ev.fire id2)).2 =
      [Act.summary (dedupPaths (changePaths mid)), Act.runStart] := by
  constructor
  · intro hpre
    have hfst : (exec initLoop pre).first = true := by
      rw [exec_first, hpre]
      rfl
    simp [stepA, onFire, hfst]
  · -- the state reached just after the earlier fire
    have hIpre : Inv (exec initLoop pre) :=
      inv_exec inv_initLoop
        (validFrom_append_left pre ((t, Ev.fire id) :: (mid ++ [(t2, Ev.fire id2)]))
          initLoop 0 hV)
    have hfV : validStep (exec initLoop pre) t (Ev.fire id) = true :=
      validStep_at_append pre initLoop 0 t (Ev.fire id) (mid ++ [(t2, Ev.fire id2)]) hV
    have hrdy0 : (exec initLoop pre).ready = true := ready_of_fire_valid hIpre hfV
    have hsplit : exec initLoop (pre ++ (t, Ev.fire id) :: mid) =
        exec (step (exec initLoop pre) t (Ev.fire id)) mid := by
      rw [exec_append, exec_cons]
    have hch : (step (exec initLoop pre) t (Ev.fire id)).changed = [] := by
      simp [step, stepA, onFire]
    have hfi : (step (exec initLoop pre) t (Ev.fire id)).first = false := by
      simp [step, stepA, onFire]
    have hrdy : (step (exec initLoop pre) t (Ev.fire id)).ready = true :=
      step_ready _ _ _ hrdy0
    obtain ⟨hc, hf, _⟩ := exec_no_fire mid (step (exec initLoop pre) t (Ev.fire id))
      hrdy hmid
    rw [hch] at hc
    rw [hfi] at hf
    rw [hsplit]
    simp [stepA, onFire, hf, hc, dedupPaths]

/-- C8 witness: first run at time 0 prints no summary; the rerun at time 2000
prints exactly the deduplicated paths changed during the first run. -/
theorem first_run_no_summary_then_exact_witness :
    validFrom initLoop 0
      ([(0, Ev.ready)] ++ (0, Ev.fire 0) ::
        ([(5, Ev.change "a"), (6, Ev.change "b"), (7, Ev.change "a"),
          (2000, Ev.done true)] ++ [(2000, Ev.fire 1)])) = true ∧
    ([(5, Ev.change "a"), (6, Ev.change "b"), (7, Ev.change "a"),
      (2000, Ev.done true)] : List (Nat × Ev)).all (fun te => !isFire te) = true ∧
    ((([(0, Ev.ready)] : List (Nat × Ev)).all (fun te => !isFire te) = true →
      (stepA (exec initLoop [(0, Ev.ready)]) 0 (Ev.fire 0)).2 = [Act.runStart]) ∧
     (stepA (exec initLoop ([(0, Ev.ready)] ++ (0, Ev.fire 0) ::
          [(5, Ev.change "a"), (6, Ev.change "b"), (7, Ev.change "a"),
           (2000, Ev.done true)])) 2000 (Ev.fire 1)).2 =
       [Act.summary (dedupPaths (changePaths
          [(5, Ev.change "a"), (6, Ev.change "b"), (7, Ev.change "a"),
           (2000, Ev.done true)])), Act.runStart]) :=
  ⟨by decide, by decide,
   first_run_no_summary_then_exact [(0, Ev.ready)]
     [(5, Ev.change "a"), (6, Ev.change "b"), (7, Ev.change "a"), (2000, Ev.done true)]
     0 2000 0 1 (by decide) (by decide)⟩

/-! ### The debounce of a change burst -/

/-- One filesystem-change event as a timed trace entry. -/
def chEv (tp : Nat × String) : Nat × Ev := (tp.1, Ev.change tp.2)

/-- Each burst event is at or after its predecessor and strictly within the 1 s
settle delay of it. -/
def gapsOK : Nat → List (Nat × String) → Bool
  | _, [] => true
  | tprev, (t, _) :: rest =>
      (Nat.ble tprev t && Nat.blt t (tprev + 1000)) && gapsOK t rest

/-- The time of a burst's last event (the seed when the burst is empty). -/
def lastTime : Nat → List (Nat × String) → Nat
  | t, [] => t
  | _, (t, _) :: rest => lastTime t rest

/-- The expected action log of a change burst processed while no run is in
progress: each event first cancels the handle held in the `timer` variable — the
timer scheduled by the previous event, or the initial (possibly stale, possibly
absent) handle for the first event — and then schedules its replacement one
second after itself. -/
def burstLog (tv : Option Nat) (base : Nat) : List (Nat × String) → List Act
  | [] => []
  | (t, _) :: rest =>
      (match tv with
       | some id => [Act.cancel id]
       | none => []) ++
      (Act.schedule base (t + 1000) :: burstLog (some base) (base + 1) rest)

/-- Core induction for a burst's tail: from a state holding exactly the timer of
the previous event, each further in-delay change cancels it and schedules its
replacement. -/
theorem burst_rest (rest : List (Nat × String)) :
    ∀ (s : LoopState) (v tprev : Nat),
      s.ready = true → s.running = false → s.timerVar = some v →
      s.pending = [(v, tprev + 1000)] → s.nextId = v + 1 →
      gapsOK tprev rest = true →
      validFrom s tprev (rest.map chEv) = true ∧
      (execA s (rest.map chEv)).2 = burstLog (some v) (v + 1) rest ∧
      (execA s (rest.map chEv)).1.pending =
        [(v + rest.length, lastTime tprev rest + 1000)] ∧
      (execA s (rest.map chEv)).1.timerVar = some (v + rest.length) ∧
      (execA s (rest.map chEv)).1.nextId = v + 1 + rest.length ∧
      (execA s (rest.map chEv)).1.ready = true ∧
      (execA s (rest.map chEv)).1.running = false := by
  induction rest with
  | nil =>
    intro s v tprev h1 h2 h3 h4 h5 _
    refine ⟨rfl, rfl, ?_, ?_, ?_, h1, h2⟩ <;> simp [execA, h4, h3, h5, lastTime]
  | cons tp rest ih =>
    intro s v tprev h1 h2 h3 h4 h5 hg
    obtain ⟨t, p⟩ := tp
    simp only [gapsOK, Bool.and_eq_true, Nat.ble_eq, Nat.blt_eq] at hg
    obtain ⟨⟨hle, hlt⟩, hg'⟩ := hg
    have hxr : (stepA s t (Ev.change p)).1.ready = true := by
      simp [stepA, onAll, h1, h2, h3, h4, removeTimer]
    have hxrun : (stepA s t (Ev.change p)).1.running = false := by
      simp [stepA, onAll, h1, h2, h3, h4, removeTimer]
    have hxtv : (stepA s t (Ev.change p)).1.timerVar = some (v + 1) := by
      simp [stepA, onAll, h1, h2, h3, h4, h5, removeTimer]
    have hxpend : (stepA s t (Ev.change p)).1.pending = [(v + 1, t + 1000)] := by
      simp [stepA, onAll, h1, h2, h3, h4, h5, removeTimer]
    have hxnext : (stepA s t (Ev.change p)).1.nextId = v + 1 + 1 := by
      simp [stepA, onAll, h1, h2, h3, h4, h5, removeTimer]
    have hxacts : (stepA s t (Ev.change p)).2 =
        [Act.cancel v, Act.schedule (v + 1) (t + 1000)] := by
      simp [stepA, onAll, h1, h2, h3, h4, h5, removeTimer]
    have hstepEq : step s t (Ev.change p) = (stepA s t (Ev.change p)).1 := rfl
    obtain ⟨ihV, ihActs, ihPend, ihTv, ihNext, ihRdy, ihRun⟩ :=
      ih (stepA s t (Ev.change p)).1 (v + 1) t hxr hxrun hxtv hxpend hxnext hg'
    refine ⟨?_, ?_, ?_, ?_, ?_, ?_, ?_⟩
    · simp only [List.map_cons, chEv, validFrom, Bool.and_eq_true]
      refine ⟨⟨?_, ?_⟩, ?_⟩
      · simpa [Nat.ble_eq] using hle
      · simp only [validStep, h4, Bool.and_eq_true, List.all_cons, List.all_nil,
          Bool.and_true, decide_eq_true_eq]
        exact Nat.le_of_lt hlt
      · rw [hstepEq]
        exact ihV
    · simp only [List.map_cons, chEv, execA_cons, hstepEq, hxacts, ihActs, burstLog]
      rfl
    · simp only [List.map_cons, chEv, execA_cons, hstepEq, ihPend, lastTime,
        List.length_cons]
      have : v + 1 + rest.length = v + (rest.length + 1) := by omega
      rw [this]
    · simp only [List.map_cons, chEv, execA_cons, hstepEq, ihTv, List.length_cons]
      have : v + 1 + rest.length = v + (rest.length + 1) := by omega
      rw [this]
    · simp only [List.map_cons, chEv, execA_cons, hstepEq, ihNext, List.length_cons]
      omega
    · simp only [List.map_cons, chEv, execA_cons, hstepEq]
      exact ihRdy
    · simp only [List.map_cons, chEv, execA_cons, hstepEq]
      exact ihRun

/-- C3. A burst of N ≥ 1 change events arriving while the watcher is ready,
no run is in progress and no timer is outstanding, each event strictly within the
1 s settle delay of its predecessor, is admissible as-is (no timer can fire inside
the burst); its action log is exactly: each event cancels the handle of the
previously outstanding timer before scheduling its replacement 1 s after itself;
afterwards exactly one rerun timer is outstanding, due exactly 1 s after the last
event of the burst — and at that moment it is admissible to fire. -/
theorem burst_debounce (s : LoopState) (t0 t1 : Nat) (p1 : String)
    (rest : List (Nat × String))
    (hready : s.ready = true) (hrun : s.running = false) (hpend : s.pending = [])
    (ht : t0 ≤ t1) (hgaps : gapsOK t1 rest = true) :
    validFrom s t0 (((t1, p1) :: rest).map chEv) = true ∧
    (execA s (((t1, p1) :: rest).map chEv)).2 =
      burstLog s.timerVar s.nextId ((t1, p1) :: rest) ∧
    (execA s (((t1, p1) :: rest).map chEv)).1.pending =
      [(s.nextId + rest.length, lastTime t1 rest + 1000)] ∧
    validStep (execA s (((t1, p1) :: rest).map chEv)).1
      (lastTime t1 rest + 1000) (Ev.fire (s.nextId + rest.length)) = true := by
  have hxr : (stepA s t1 (Ev.change p1)).1.ready = true := by
    cases hv : s.timerVar <;> simp [stepA, onAll, hready, hrun, hv, hpend, removeTimer]
  have hxrun : (stepA s t1 (Ev.change p1)).1.running = false := by
    cases hv : s.timerVar <;> simp [stepA, onAll, hready, hrun, hv, hpend, removeTimer]
  have hxtv : (stepA s t1 (Ev.change p1)).1.timerVar = some s.nextId := by
    cases hv : s.timerVar <;> simp [stepA, onAll, hready, hrun, hv, hpend, removeTimer]
  have hxpend : (stepA s t1 (Ev.change p1)).1.pending = [(s.nextId, t1 + 1000)] := by
    cases hv : s.timerVar <;> simp [stepA, onAll, hready, hrun, hv, hpend, removeTimer]
  have hxnext : (stepA s t1 (Ev.change p1)).1.nextId = s.nextId + 1 := by
    cases hv : s.timerVar <;> simp [stepA, onAll, hready, hrun, hv, hpend, removeTimer]
  have hxacts : (stepA s t1 (Ev.change p1)).2 =
      (match s.timerVar with
       | some id => [Act.cancel id]
       | none => []) ++ [Act.schedule s.nextId (t1 + 1000)] := by
    cases hv : s.timerVar <;> simp [stepA, onAll, hready, hrun, hv, hpend, removeTimer]
  have hstepEq : step s t1 (Ev.change p1) = (stepA s t1 (Ev.change p1)).1 := rfl
  obtain ⟨ihV, ihActs, ihPend, ihTv, ihNext, ihRdy, ihRun⟩ :=
    burst_rest rest (stepA s t1 (Ev.change p1)).1 s.nextId t1 hxr hxrun hxtv hxpend
      hxnext hgaps
  refine ⟨?_, ?_, ?_, ?_⟩
  · simp only [List.map_cons, chEv, validFrom, Bool.and_eq_true]
    refine ⟨⟨by simpa [Nat.ble_eq] using ht, by simp [validStep, hpend]⟩, ?_⟩
    rw [hstepEq]
    exact ihV
  · simp only [List.map_cons, chEv, execA_cons, hstepEq, hxacts, ihActs, burstLog]
    simp
  · simp only [List.map_cons, chEv, execA_cons, hstepEq, ihPend]
  · simp only [List.map_cons, chEv, execA_cons, hstepEq]
    simp [validStep, ihPend]

/-- The idle state after a first run that completed with no changes: watcher
ready, nothing running, no timer outstanding, the fired timer's stale handle still
held by the `timer` variable. -/
def idleState : LoopState :=
  exec initLoop [(0, Ev.ready), (0, Ev.fire 0), (1000, Ev.done true)]

/-- C3 witness: from the idle state, changes at 2000 ms and 2500 ms coalesce
into one timer due at 3500 ms. -/
theorem burst_debounce_witness :
    idleState.ready = true ∧ idleState.running = false ∧ idleState.pending = [] ∧
    1000 ≤ 2000 ∧ gapsOK 2000 [(2500, "b")] = true ∧
    (validFrom idleState 1000 (((2000, "a") :: [(2500, "b")]).map chEv) = true ∧
     (execA idleState (((2000, "a") :: [(2500, "b")]).map chEv)).2 =
       burstLog idleState.timerVar idleState.nextId ((2000, "a") :: [(2500, "b")]) ∧
     (execA idleState (((2000, "a") :: [(2500, "b")]).map chEv)).1.pending =
       [(idleState.nextId + ([(2500, "b")] : List (Nat × String)).length,
         lastTime 2000 [(2500, "b")] + 1000)] ∧
     validStep (execA idleState (((2000, "a") :: [(2500, "b")]).map chEv)).1
       (lastTime 2000 [(2500, "b")] + 1000)
       (Ev.fire (idleState.nextId + ([(2500, "b")] : List (Nat × String)).length)) =
         true) :=
  ⟨by decide, by decide, by decide, by decide, by decide,
   burst_debounce idleState 1000 2000 "a" [(2500, "b")] (by decide) (by decide)
     (by decide) (by decide) (by decide)⟩

end GemstoneToolFrontend
